import Mathlib

/-!
Shallow embedding of `inexpress.js`, a small HTTP server framework built on
Node's TCP server.  JavaScript strings are modelled as Lean `String`s,
JavaScript plain objects used as string-keyed maps are modelled as
association lists in insertion order (property overwrite keeps the original
position, as JS objects do for non-integer keys), and writes to the TCP
socket are modelled as the list of strings written, in order.
-/

namespace Inexpress

/-- JS object property read: `m[k]`, `undefined` becomes `none`. -/
def objGet {κ α : Type} [BEq κ] (m : List (κ × α)) (k : κ) : Option α :=
  (m.find? (fun p => p.1 == k)).map Prod.snd

/-- JS `k in m`. -/
def containsKey {κ α : Type} [BEq κ] (m : List (κ × α)) (k : κ) : Bool :=
  m.any (fun p => p.1 == k)

/-- JS object property write `m[k] = v`: overwrite in place if the key is
present (JS keeps the original insertion position), append otherwise. -/
def objSet {κ α : Type} [BEq κ] (m : List (κ × α)) (k : κ) (v : α) : List (κ × α) :=
  if containsKey m k then
    m.map (fun p => if p.1 == k then (k, v) else p)
  else
    m ++ [(k, v)]

/-- Mappings from common status codes to descriptions. -/
def HTTP_STATUS_CODES : List (Nat × String) :=
  [(200, "OK"), (301, "Moved Permanently"), (404, "Not Found"),
   (500, "Internal Server Error")]

/-- `HTTP_STATUS_CODES[c]` as used in a JS template/array join, where an
absent key (`undefined`) is rendered as the empty string. -/
def statusDesc (c : Nat) : String :=
  (objGet HTTP_STATUS_CODES c).getD ""

/-- Mappings from common file extensions to MIME type. -/
def MIME_TYPES : List (String × String) :=
  [("jpg", "image/jpeg"), ("jpeg", "image/jpeg"), ("png", "image/png"),
   ("html", "text/html"), ("css", "text/css"), ("txt", "text/plain")]

/-- JS `String.prototype.split` with a single-character separator: empty
pieces between consecutive separators are kept, and the result is never
empty (`"".split(sep)` is `[""]`). -/
def splitChar (sep : Char) : List Char → List (List Char)
  | [] => [[]]
  | c :: rest =>
    if c == sep then
      [] :: splitChar sep rest
    else
      match splitChar sep rest with
      | t :: ts => (c :: t) :: ts
      | [] => [[c]]

/-- Node `path.posix` `normalizeString`: resolve `.` and `..` segments and
drop empty segments; the accumulator is kept reversed. -/
def normalizeSegs (allowAboveRoot : Bool) (segs : List (List Char)) : List (List Char) :=
  segs.foldl
    (fun acc seg =>
      if seg = [] ∨ seg = ['.'] then acc
      else if seg = ['.', '.'] then
        match acc with
        | [] => if allowAboveRoot then [['.', '.']] else []
        | t :: rest =>
          if t = ['.', '.'] then
            (if allowAboveRoot then ['.', '.'] :: acc else acc)
          else rest
      else seg :: acc)
    []

/-- Node `path.posix.normalize`. -/
def posixNormalize (p : String) : String :=
  if p = "" then "." else
  let isAbs := p.data.head? == some '/'
  let trailing := p.data.getLast? == some '/'
  let stack := normalizeSegs (!isAbs) (splitChar '/' p.data)
  let core := String.intercalate "/" (stack.reverse.map (fun l => String.mk l))
  if core = "" then
    (if isAbs then "/" else if trailing then "./" else ".")
  else
    let core := if trailing then core ++ "/" else core
    if isAbs then "/" ++ core else core

/-- Node `path.posix.join` restricted to two arguments, as `serveStatic`
uses it. -/
def posixJoin (a b : String) : String :=
  let parts := [a, b].filter (fun s => s ≠ "")
  if parts = [] then "." else posixNormalize (String.intercalate "/" parts)

/-- Index of the last `.` in a list of characters. -/
def lastDotIdx (b : List Char) : Option Nat :=
  match b.reverse.findIdx? (fun c => c == '.') with
  | none => none
  | some j => some (b.length - 1 - j)

/-- Node `path.extname`: the extension (with its dot) of the basename,
empty for a lone leading dot (`.bashrc`), for `..`, and when there is no
dot.  Trailing slashes are ignored. -/
def extname (fileName : String) : String :=
  let rev := fileName.data.reverse.dropWhile (fun c => c == '/')
  let b := (rev.takeWhile (fun c => c != '/')).reverse
  match lastDotIdx b with
  | none => ""
  | some i => if i = 0 ∨ b = ['.', '.'] then "" else String.mk (b.drop i)

/-- Returns an extension based on file name:
`path.extname(fileName).toLowerCase().slice(1)`. -/
def getExtension (fileName : String) : String :=
  ⟨((extname fileName).data.map Char.toLower).drop 1⟩

/-- Gives back MIME type based on file name; the empty string when the
extension is not in `MIME_TYPES`. -/
def getMIMEType (fileName : String) : String :=
  match objGet MIME_TYPES (getExtension fileName) with
  | some t => t
  | none => ""

/-- The `Request` class: only `method` and `path` are extracted, by JS
array destructuring of `s.split(' ')`; a missing token is `undefined`,
modelled as `none`. -/
structure Request where
  method : Option String
  path : Option String
  others : List String
deriving Repr, DecidableEq

/-- `new Request(s)`: `const [method, reqPath, ...others] = s.split(' ')`. -/
def Request.ofString (s : String) : Request :=
  let parts := (splitChar ' ' s.data).map (fun l => String.mk l)
  ⟨parts.get? 0, parts.get? 1, parts.drop 2⟩

/-- The `Response` class.  The socket itself is not part of the state;
writes are returned alongside the new state by `send`. -/
structure Response where
  statusCode : Nat
  version : String
  headers : List (String × String)
  body : String
deriving Repr, DecidableEq

/-- `new Response(socket)` with the default arguments
(`statusCode = 200`, `version = 'HTTP/1.1'`). -/
def Response.init : Response :=
  ⟨200, "HTTP/1.1", [], ""⟩

/-- Method to set an http response header. -/
def Response.set (r : Response) (name value : String) : Response :=
  { r with headers := objSet r.headers name value }

/-- Stringify the 1st line of a response:
`[version, statusCode, HTTP_STATUS_CODES[statusCode]].join(' ') + '\r\n'`. -/
def Response.statusLineToString (r : Response) : String :=
  r.version ++ " " ++ toString r.statusCode ++ " " ++ statusDesc r.statusCode ++ "\r\n"

/-- Stringify the response headers: `Object.entries` in insertion order,
each rendered `name: value`, joined by CRLF, plus a final CRLF. -/
def Response.headersToString (r : Response) : String :=
  String.intercalate "\r\n" (r.headers.map (fun p => p.1 ++ ": " ++ p.2)) ++ "\r\n"

/-- Actually sending the response by writing to the TCP/IP socket: default
the `Content-Type` header to `text/html` when unset, then either a single
write (status 301) or four writes (status line, headers, blank line, body).
`send` ends by closing the socket (`this.end()`), which has no effect on
the byte stream and is not modelled.  Returns the updated response state
and the list of strings written. -/
def Response.send (r : Response) (body : String) : Response × List String :=
  let r := if containsKey r.headers "Content-Type" then r
           else r.set "Content-Type" "text/html"
  if r.statusCode = 301 then
    (r, [r.statusLineToString ++ r.headersToString ++ "\r\n" ++ body])
  else
    (r, [r.statusLineToString, r.headersToString, "\r\n", body])

/-- Set status code (returns `this` for chaining). -/
def Response.status (r : Response) (statusCode : Nat) : Response :=
  { r with statusCode := statusCode }

/-- Characters that stop the pathname of a URL: the query and fragment
delimiters. -/
def pathnameStop (c : Char) : Bool :=
  c == '?' || c == '#'

/-- The pathname part of `'http://127.0.0.1' + reqPath` before query /
fragment removal. -/
def rawPathname (l : List Char) : List Char :=
  l.takeWhile (fun c => !pathnameStop c)

/-- `new URL('http://127.0.0.1' + reqPath).pathname` (for well-behaved
`reqPath`, see `validPath`): cut at the first `?` or `#`; an absent path
is rendered `/`. -/
def urlPathname (l : List Char) : List Char :=
  if rawPathname l = [] then ['/'] else rawPathname l

/-- `normalizePath` on character lists: lowercase the pathname and strip a
single trailing slash. -/
def normChars (l : List Char) : List Char :=
  let p := (urlPathname l).map Char.toLower
  if p.getLast? = some '/' then p.dropLast else p

/-- Takes a path and normalizes casing and trailing slash; removes the
query string or fragment if present. -/
def normalizePath (reqPath : String) : String :=
  ⟨normChars reqPath.data⟩

/-- Characters on which the `new URL` pathname extraction is the identity:
ASCII letters and digits, `/`, `-` and `_` (no percent-escapes, spaces,
backslashes or dot segments, which Node's URL parser would rewrite). -/
def isSafeChar (c : Char) : Bool :=
  c.isAlpha || c.isDigit || c == '/' || c == '-' || c == '_'

/-- The domain on which the embedding of `normalizePath` is faithful to
`new URL('http://127.0.0.1' + reqPath).pathname`: the part before any
query/fragment is either empty or starts with `/`, and contains only
characters the URL parser copies verbatim. -/
def validPath (s : String) : Bool :=
  (rawPathname s.data).all isSafeChar &&
    (rawPathname s.data = [] || (rawPathname s.data).head? = some '/')

/-- Takes an http method and path, normalizes both, and concatenates them
to create a key that uniquely identifies a route. -/
def createRouteKey (method reqPath : String) : String :=
  ⟨method.data.map Char.toUpper⟩ ++ " " ++ normalizePath reqPath

/-- The `App` class, reduced to its route table; the TCP server and the
middleware slot carry no state the claims mention.  Handlers are opaque
values of type `α`. -/
structure App (α : Type) where
  routes : List (String × α)

/-- `app.get(path, callback)`. -/
def App.get {α : Type} (app : App α) (reqPath : String) (callback : α) : App α :=
  ⟨objSet app.routes (createRouteKey "GET" reqPath) callback⟩

/-- Outcome of `processRoutes`: either the matching handler is invoked
with `(req, res)`, or the not-found response is sent. -/
inductive Dispatch (α : Type) where
  | handled (h : α)
  | notFound (res : Response) (writes : List String)
deriving Repr, DecidableEq

/-- Determines if requested route exists and invokes the route handler
function when appropriate.  On a miss the source executes
`res.status = 404`, a property assignment that shadows the `status`
method with the number 404 but leaves `statusCode` untouched, and then
`res.send('Page not found')`. -/
def App.processRoutes {α : Type} (app : App α) (req : Request) (res : Response) :
    Dispatch α :=
  let key := createRouteKey (req.method.getD "undefined") (req.path.getD "undefined")
  match objGet app.routes key with
  | some h => .handled h
  | none =>
    let sent := res.send "Page not found"
    .notFound sent.1 sent.2

/-- Outcome of the `serveStatic` middleware on one request. -/
inductive StaticOutcome where
  | fallThrough
  | served (res : Response) (writes : List String)
deriving Repr, DecidableEq

/-- The static middleware: read `path.posix.join(basePath, req.path)`; on
error call `next()` (fall through), otherwise set `Content-Type` from the
file name and send the data.  The file system is modelled as a partial map
from paths to contents (`none` = any read error). -/
def serveStatic (basePath : String) (fsRead : String → Option String)
    (req : Request) (res : Response) : StaticOutcome :=
  let filePath := posixJoin basePath (req.path.getD "undefined")
  match fsRead filePath with
  | none => .fallThrough
  | some data =>
    let res := res.set "Content-Type" (getMIMEType filePath)
    let sent := res.send data
    .served sent.1 sent.2

/-- Spec-side description of the non-301 path of `Response.send`, for the
refinement comparison: the four separate writes (status line, headers,
blank line, body) performed after the same `Content-Type` defaulting. -/
def multiWriteSpec (r : Response) (body : String) : List String :=
  let r := if containsKey r.headers "Content-Type" then r
           else r.set "Content-Type" "text/html"
  [r.statusLineToString, r.headersToString, "\r\n", body]

/-- Spec-side description of `Request` parsing, for the comparison in the
claim about request-line tokenisation: split the raw text on ASCII
whitespace (space, tab, line feed, carriage return, form feed). -/
def wsSplitTokens (s : String) : List String :=
  (s.data.splitOnP (fun c => c == ' ' || c == '\t' || c == '\n' || c == '\r' || c == '\x0c')).map
    (fun l => String.mk l)

/-! ### Association-list (JS object) lemmas -/

theorem objGet_objSet_self {κ α : Type} [BEq κ] [LawfulBEq κ]
    (m : List (κ × α)) (k : κ) (v : α) :
    objGet (objSet m k v) k = some v := by
  unfold objSet
  by_cases hc : containsKey m k
  · rw [if_pos hc]
    induction m with
    | nil => simp [containsKey] at hc
    | cons a t ih =>
      simp only [List.map_cons]
      by_cases ha : a.1 == k
      · rw [if_pos ha]
        simp [objGet, List.find?]
      · rw [if_neg ha]
        have hb : (a.1 == k) = false := by
          simpa using ha
        have ht : containsKey t k = true := by
          unfold containsKey at hc ⊢
          simp only [List.any_cons, hb, Bool.false_or] at hc
          exact hc
        have := ih ht
        unfold objGet at this ⊢
        rw [List.find?_cons_of_neg _ (by simpa using ha)]
        exact this
  · rw [if_neg hc]
    unfold objGet
    rw [List.find?_append]
    have hnone : m.find? (fun p => p.1 == k) = none := by
      rw [List.find?_eq_none]
      intro x hx hpx
      exact hc (by unfold containsKey; exact List.any_eq_true.mpr ⟨x, hx, hpx⟩)
    simp [hnone, List.find?]

theorem containsKey_objSet_self {κ α : Type} [BEq κ] [LawfulBEq κ]
    (m : List (κ × α)) (k : κ) (v : α) :
    containsKey (objSet m k v) k = true := by
  unfold objSet
  by_cases hc : containsKey m k
  · rw [if_pos hc]
    unfold containsKey at hc ⊢
    rcases List.any_eq_true.mp hc with ⟨x, hx, hpx⟩
    refine List.any_eq_true.mpr ⟨(k, v), ?_, by simp⟩
    refine List.mem_map.mpr ⟨x, hx, ?_⟩
    rw [if_pos hpx]
  · rw [if_neg hc]
    unfold containsKey
    rw [List.any_append]
    simp

theorem objGet_append_right {κ α : Type} [BEq κ]
    (m x : List (κ × α)) (k : κ) (v : α) (h : objGet m k = some v) :
    objGet (m ++ x) k = some v := by
  unfold objGet at h ⊢
  rw [List.find?_append]
  rcases Option.map_eq_some'.mp h with ⟨a, ha, hav⟩
  rw [ha]
  simp [Option.or, hav]

/-! ### `splitChar` lemmas -/

theorem splitChar_sep_append (sep : Char) (m rest : List Char) (hm : sep ∉ m) :
    splitChar sep (m ++ sep :: rest) = m :: splitChar sep rest := by
  induction m with
  | nil =>
    simp [splitChar]
  | cons c t ih =>
    have hc : ¬ c = sep := fun h => hm (h ▸ List.mem_cons_self c t)
    have ht : sep ∉ t := fun h => hm (List.mem_cons_of_mem c h)
    simp only [List.cons_append, splitChar, beq_iff_eq, if_neg hc, List.append_eq, ih ht]

theorem splitChar_no_sep (sep : Char) (l : List Char) (h : sep ∉ l) :
    splitChar sep l = [l] := by
  induction l with
  | nil => rfl
  | cons c t ih =>
    have hc : ¬ c = sep := fun hh => h (hh ▸ List.mem_cons_self c t)
    have ht : sep ∉ t := fun hh => h (List.mem_cons_of_mem c hh)
    simp only [splitChar, beq_iff_eq, if_neg hc, ih ht]

/-! ### `Char.toLower` lemmas -/

theorem char_toNat_ofNat {n : Nat} (h : n < 0xd800) : (Char.ofNat n).toNat = n := by
  rw [Char.ofNat, dif_pos (Or.inl h : Nat.isValidChar n)]
  rfl

theorem toLower_toLower (c : Char) : c.toLower.toLower = c.toLower := by
  unfold Char.toLower
  by_cases h : 65 ≤ c.toNat ∧ c.toNat ≤ 90
  · rw [if_pos h]
    have h32 : (Char.ofNat (c.toNat + 32)).toNat = c.toNat + 32 := char_toNat_ofNat (by omega)
    rw [if_neg (by omega)]
  · rw [if_neg h, if_neg h]

theorem toLower_lower_range (c : Char) :
    c.toLower = c ∨ (97 ≤ c.toLower.toNat ∧ c.toLower.toNat ≤ 122) := by
  unfold Char.toLower
  by_cases h : 65 ≤ c.toNat ∧ c.toNat ≤ 90
  · right
    rw [if_pos h]
    have h32 : (Char.ofNat (c.toNat + 32)).toNat = c.toNat + 32 := char_toNat_ofNat (by omega)
    omega
  · left
    rw [if_neg h]

theorem pathnameStop_toLower (c : Char) (h : pathnameStop c = false) :
    pathnameStop c.toLower = false := by
  rcases toLower_lower_range c with heq | hrange
  · rw [heq]; exact h
  · unfold pathnameStop
    have h1 : c.toLower ≠ '?' := by
      intro he
      rw [he] at hrange
      exact absurd hrange (by decide)
    have h2 : c.toLower ≠ '#' := by
      intro he
      rw [he] at hrange
      exact absurd hrange (by decide)
    simp [h1, h2]

/-! ### `normChars` lemmas: the output is a lowercase, query-free pathname -/

theorem mem_normChars_no_stop (l : List Char) :
    ∀ c ∈ normChars l, pathnameStop c = false := by
  intro c hc
  have hp : c ∈ (urlPathname l).map Char.toLower := by
    unfold normChars at hc
    by_cases hl : ((urlPathname l).map Char.toLower).getLast? = some '/'
    · rw [if_pos hl] at hc
      exact List.dropLast_subset _ hc
    · rw [if_neg hl] at hc
      exact hc
  rcases List.mem_map.mp hp with ⟨d, hd, rfl⟩
  apply pathnameStop_toLower
  unfold urlPathname at hd
  by_cases hraw : rawPathname l = []
  · rw [if_pos hraw] at hd
    simp at hd
    rw [hd]
    rfl
  · rw [if_neg hraw] at hd
    have := List.mem_takeWhile_imp hd
    simpa using this

theorem mem_normChars_lower (l : List Char) :
    ∀ c ∈ normChars l, c.toLower = c := by
  intro c hc
  have hp : c ∈ (urlPathname l).map Char.toLower := by
    unfold normChars at hc
    by_cases hl : ((urlPathname l).map Char.toLower).getLast? = some '/'
    · rw [if_pos hl] at hc
      exact List.dropLast_subset _ hc
    · rw [if_neg hl] at hc
      exact hc
  rcases List.mem_map.mp hp with ⟨d, _, rfl⟩
  exact toLower_toLower d

theorem normChars_fixed (r : List Char)
    (hstop : ∀ c ∈ r, pathnameStop c = false)
    (hlow : ∀ c ∈ r, c.toLower = c)
    (hlast : r.getLast? ≠ some '/') :
    normChars r = r := by
  rcases eq_or_ne r [] with rfl | hne
  · decide
  · have hraw : rawPathname r = r := by
      unfold rawPathname
      rw [List.takeWhile_eq_self_iff]
      intro c hc
      simp [hstop c hc]
    have hurl : urlPathname r = r := by
      unfold urlPathname
      rw [hraw, if_neg hne]
    have hmap : r.map Char.toLower = r := by
      have : r.map Char.toLower = r.map id := List.map_congr_left (fun c hc => hlow c hc)
      rw [this, List.map_id]
    unfold normChars
    rw [hurl, hmap, if_neg hlast]

/-! ### `Response.send` helper lemmas -/

theorem send_fst (r : Response) (body : String) :
    (r.send body).1 = if containsKey r.headers "Content-Type" then r
                      else r.set "Content-Type" "text/html" := by
  simp only [Response.send]
  by_cases hc : containsKey r.headers "Content-Type"
  · rw [if_pos hc]
    by_cases h301 : r.statusCode = 301
    · rw [if_pos h301]
    · rw [if_neg h301]
  · rw [if_neg hc]
    by_cases h301 : (r.set "Content-Type" "text/html").statusCode = 301
    · rw [if_pos h301]
    · rw [if_neg h301]

theorem send_join (r : Response) (body : String) :
    String.join (r.send body).2 =
      (r.send body).1.statusLineToString ++ ((r.send body).1.headersToString ++
        ("\r\n" ++ body)) := by
  simp only [Response.send]
  by_cases hc : containsKey r.headers "Content-Type"
  · rw [if_pos hc]
    by_cases h301 : r.statusCode = 301
    · rw [if_pos h301]
      simp [String.join, String.append_assoc]
    · rw [if_neg h301]
      simp [String.join, String.append_assoc]
  · rw [if_neg hc]
    by_cases h301 : (r.set "Content-Type" "text/html").statusCode = 301
    · rw [if_pos h301]
      simp [String.join, String.append_assoc]
    · rw [if_neg h301]
      simp [String.join, String.append_assoc]

/-! ### The claims -/

/-- Claim C1: the spec says a request to an unregistered `(method, path)`
pair yields status 404 with body `"Page not found"`.  The code instead
executes `res.status = 404`, which overwrites the `status` *method* and
leaves `statusCode` at its default 200, so the wire carries the status
line `HTTP/1.1 200 OK` (followed by the body `Page not found`).  This
theorem evaluates the dispatch at such a failing input. -/
theorem c1_unregistered_route_sends_200 :
    App.processRoutes (⟨[]⟩ : App Nat) (Request.ofString "GET /nosuch HTTP/1.1") Response.init =
      .notFound ⟨200, "HTTP/1.1", [("Content-Type", "text/html")], ""⟩
        ["HTTP/1.1 200 OK\r\n", "Content-Type: text/html\r\n", "\r\n", "Page not found"] := by
  rfl

/-- Claim C4: constructing a `Response` (default status 200, version
`HTTP/1.1`), then `set('X-Test','1')`, `status(200)`, `send('hello')`
writes exactly
`HTTP/1.1 200 OK\r\nX-Test: 1\r\nContent-Type: text/html\r\n\r\nhello`
to the connection, headers in insertion order. -/
theorem c4_serialization_roundtrip :
    ((Response.init.set "X-Test" "1").status 200).send "hello" =
      (⟨200, "HTTP/1.1", [("X-Test", "1"), ("Content-Type", "text/html")], ""⟩,
       ["HTTP/1.1 200 OK\r\n", "X-Test: 1\r\nContent-Type: text/html\r\n", "\r\n", "hello"]) ∧
    String.join (((Response.init.set "X-Test" "1").status 200).send "hello").2 =
      "HTTP/1.1 200 OK\r\nX-Test: 1\r\nContent-Type: text/html\r\n\r\nhello" :=
  ⟨rfl, rfl⟩

/-- Claim C10: normalizing the root path `/` yields the empty string, the
route key for a GET of `/` is `"GET "`, and since registration and lookup
normalize alike, a handler registered for `/` is matched by a request for
`/`. -/
theorem c10_root_path_key :
    normalizePath "/" = "" ∧ createRouteKey "GET" "/" = "GET " ∧
    App.processRoutes ((App.mk ([] : List (String × Nat))).get "/" 42)
      (Request.ofString "GET / HTTP/1.1") Response.init = .handled 42 :=
  ⟨rfl, by decide, by decide⟩

/-- Claim C3, counterexample: the constructor splits on the space
character only, not on all (ASCII) whitespace; on the raw text
`"GET\t/x HTTP/1.1"` the code's `method` field is `"GET\t/x"` while a
whitespace split would make it `"GET"`. -/
theorem c3_counterexample :
    (Request.ofString "GET\t/x HTTP/1.1").method = some "GET\t/x" ∧
    (wsSplitTokens "GET\t/x HTTP/1.1").get? 0 = some "GET" ∧
    (Request.ofString "GET\t/x HTTP/1.1").method ≠ (wsSplitTokens "GET\t/x HTTP/1.1").get? 0 := by
  refine ⟨rfl, by decide, by decide⟩

/-- Claim C3 (amended): the `Request` constructor splits the raw text on
the space character U+0020 only; the first token becomes `method`, the
second becomes `path`, and the remaining tokens are preserved as
`others`. -/
theorem c3_split_on_space (m p rest : String)
    (hm : ' ' ∉ m.data) (hp : ' ' ∉ p.data) :
    Request.ofString (m ++ " " ++ (p ++ " " ++ rest)) =
      ⟨some m, some p, (splitChar ' ' rest.data).map (fun l => String.mk l)⟩ ∧
    Request.ofString (m ++ " " ++ p) = ⟨some m, some p, []⟩ := by
  constructor
  · unfold Request.ofString
    have hd : (m ++ " " ++ (p ++ " " ++ rest)).data =
        m.data ++ ' ' :: (p.data ++ ' ' :: rest.data) := by
      simp [String.data_append]
    rw [hd, splitChar_sep_append _ _ _ hm, splitChar_sep_append _ _ _ hp]
    rfl
  · unfold Request.ofString
    have hd : (m ++ " " ++ p).data = m.data ++ ' ' :: p.data := by
      simp [String.data_append]
    rw [hd, splitChar_sep_append _ _ _ hm, splitChar_no_sep _ _ hp]
    rfl

/-- Closed instance for `c3_split_on_space`, at the request line
`"GET /index.html HTTP/1.1"`. -/
theorem c3_split_on_space_witness :
    Request.ofString ("GET" ++ " " ++ ("/index.html" ++ " " ++ "HTTP/1.1")) =
      ⟨some "GET", some "/index.html",
        (splitChar ' ' ("HTTP/1.1" : String).data).map (fun l => String.mk l)⟩ ∧
    Request.ofString ("GET" ++ " " ++ "/index.html") =
      ⟨some "GET", some "/index.html", []⟩ :=
  c3_split_on_space "GET" "/index.html" "HTTP/1.1" (by decide) (by decide)

/-- Claim C7, counterexample: `normalizePath` is not idempotent.  On
`"//"` the pathname is `//`; stripping one trailing slash gives `/`, and
normalizing again strips that slash too, giving the empty string. -/
theorem c7_counterexample :
    normalizePath "//" = "/" ∧ normalizePath (normalizePath "//") = "" ∧
    normalizePath (normalizePath "//") ≠ normalizePath "//" := by
  refine ⟨rfl, rfl, by decide⟩

/-- Claim C7 (amended): `normalizePath` is idempotent on every valid path
whose normalized form does not itself end in a slash (the normalized form
ends in a slash only when the pathname ends in a double slash, as in the
counterexample `"//"`). -/
theorem c7_idempotent_no_trailing_slash (p : String)
    (_hv : validPath p = true)
    (hts : (normalizePath p).data.getLast? ≠ some '/') :
    normalizePath (normalizePath p) = normalizePath p := by
  unfold normalizePath
  congr 1
  exact normChars_fixed _ (mem_normChars_no_stop _) (mem_normChars_lower _) hts

/-- Closed instance for `c7_idempotent_no_trailing_slash`, at the spec's
example `"/Gallery/"` (which normalizes to `"/gallery"`). -/
theorem c7_idempotent_witness :
    validPath "/Gallery/" = true ∧
    normalizePath (normalizePath "/Gallery/") = normalizePath "/Gallery/" :=
  ⟨by decide, c7_idempotent_no_trailing_slash "/Gallery/" (by decide) (by decide)⟩

/-- Claim C2: for every handler registered via `get(path, handler)`, every
request whose method uppercases to `GET` and whose path normalizes to the
same normalized path causes `processRoutes` to invoke that handler. -/
theorem c2_get_dispatch_invokes_handler {α : Type} (app : App α)
    (regPath : String) (h : α) (req : Request) (res : Response) (m q : String)
    (hm : req.method = some m) (hq : req.path = some q)
    (hup : (⟨m.data.map Char.toUpper⟩ : String) = "GET")
    (hnorm : normalizePath q = normalizePath regPath) :
    (app.get regPath h).processRoutes req res = .handled h := by
  unfold App.processRoutes
  rw [hm, hq]
  simp only [Option.getD_some]
  have hkey : createRouteKey m q = createRouteKey "GET" regPath := by
    unfold createRouteKey
    rw [hup, hnorm]
    rfl
  rw [hkey]
  unfold App.get
  rw [objGet_objSet_self]

/-- Closed instance for `c2_get_dispatch_invokes_handler`: a handler
registered for `/Gallery/` is invoked for a request `get /gallery`. -/
theorem c2_witness :
    ((App.mk ([] : List (String × Nat))).get "/Gallery/" 7).processRoutes
      (Request.ofString "get /gallery HTTP/1.1") Response.init = .handled 7 :=
  c2_get_dispatch_invokes_handler (App.mk []) "/Gallery/" 7
    (Request.ofString "get /gallery HTTP/1.1") Response.init "get" "/gallery"
    rfl rfl (by decide) (by decide)

/-- Claim C6: two raw paths that normalize identically (such as `/Foo`
and `/foo/`, which both normalize to `/foo`) produce the same route key,
so registering GET handlers for them in sequence leaves a route table
with a single entry holding the second handler: the later registration
silently overwrites the earlier one. -/
theorem c6_normalization_collision {α : Type} (p1 p2 : String) (h1 h2 : α)
    (hn : normalizePath p1 = normalizePath p2) :
    createRouteKey "GET" p1 = createRouteKey "GET" p2 ∧
    ((App.mk ([] : List (String × α))).get p1 h1).get p2 h2 =
      App.mk [(createRouteKey "GET" p2, h2)] ∧
    objGet (((App.mk ([] : List (String × α))).get p1 h1).get p2 h2).routes
      (createRouteKey "GET" p1) = some h2 := by
  have hkey : createRouteKey "GET" p1 = createRouteKey "GET" p2 := by
    unfold createRouteKey
    rw [hn]
  refine ⟨hkey, ?_, ?_⟩
  · unfold App.get
    rw [hkey]
    simp [objSet, containsKey]
  · unfold App.get
    rw [hkey]
    simp [objSet, containsKey, objGet, List.find?]

/-- Closed instance for `c6_normalization_collision`, at the spec's
example pair `/Foo` and `/foo/`. -/
theorem c6_witness :
    createRouteKey "GET" "/Foo" = createRouteKey "GET" "/foo/" ∧
    ((App.mk ([] : List (String × Nat))).get "/Foo" 1).get "/foo/" 2 =
      App.mk [(createRouteKey "GET" "/foo/", 2)] ∧
    objGet (((App.mk ([] : List (String × Nat))).get "/Foo" 1).get "/foo/" 2).routes
      (createRouteKey "GET" "/Foo") = some 2 :=
  c6_normalization_collision "/Foo" "/foo/" 1 2 (by decide)

/-- Claim C9: `send(body)` leaves `statusCode`, `version`, the stored
`body` field and every previously set header unchanged; its only state
mutation is appending a `Content-Type: text/html` header when none was
set before the call. -/
theorem c9_send_frame (r : Response) (body : String) :
    (r.send body).1.statusCode = r.statusCode ∧
    (r.send body).1.version = r.version ∧
    (r.send body).1.body = r.body ∧
    (r.send body).1.headers =
      (if containsKey r.headers "Content-Type" then r.headers
       else r.headers ++ [("Content-Type", "text/html")]) ∧
    (∀ k v, objGet r.headers k = some v → objGet (r.send body).1.headers k = some v) := by
  rw [send_fst]
  by_cases hc : containsKey r.headers "Content-Type"
  · rw [if_pos hc, if_pos hc]
    exact ⟨rfl, rfl, rfl, rfl, fun k v hv => hv⟩
  · rw [if_neg hc, if_neg hc]
    have hset : (r.set "Content-Type" "text/html").headers =
        r.headers ++ [("Content-Type", "text/html")] := by
      unfold Response.set objSet
      rw [if_neg hc]
    refine ⟨rfl, rfl, rfl, hset, fun k v hv => ?_⟩
    rw [hset]
    exact objGet_append_right _ _ _ _ hv

/-- Closed instance for `c9_send_frame`: sending on a response that
already carries a `Content-Type` preserves the looked-up header. -/
theorem c9_witness :
    objGet (Response.init.set "Content-Type" "text/css").headers "Content-Type" =
      some "text/css" ∧
    objGet (((Response.init.set "Content-Type" "text/css").send "x").1).headers
      "Content-Type" = some "text/css" :=
  ⟨rfl, (c9_send_frame (Response.init.set "Content-Type" "text/css") "x").2.2.2.2
    "Content-Type" "text/css" rfl⟩

/-- Claim C8: when the status code is exactly 301, `send` emits a single
contiguous write whose byte content equals the concatenation of the four
separate writes of the non-301 path on the same response state. -/
theorem c8_301_single_write (r : Response) (body : String)
    (h : r.statusCode = 301) :
    (r.send body).2 = [String.join (multiWriteSpec r body)] := by
  simp only [Response.send, multiWriteSpec]
  by_cases hc : containsKey r.headers "Content-Type"
  · rw [if_pos hc, if_pos (show r.statusCode = 301 from h)]
    simp [String.join, String.append_assoc]
  · rw [if_neg hc, if_pos (show (r.set "Content-Type" "text/html").statusCode = 301 from h)]
    simp [String.join, String.append_assoc]

/-- Closed instance for `c8_301_single_write`, at the spec's redirect
scenario `status(301)` + `set('Location','/gallery')` +
`send('Redirecting')`. -/
theorem c8_witness :
    (((Response.init.set "Location" "/gallery").status 301).send "Redirecting").2 =
      [String.join (multiWriteSpec ((Response.init.set "Location" "/gallery").status 301)
        "Redirecting")] :=
  c8_301_single_write ((Response.init.set "Location" "/gallery").status 301) "Redirecting" rfl

/-- Claim C5: the static-file middleware, on a successful read of
`path.posix.join(basePath, req.path)`, sets `Content-Type` to the MIME
type inferred from the file's extension (the empty string when the
extension is unknown) and sends the file data as the body; on any read
failure it falls through to `next()` instead of surfacing an error. -/
theorem c5_serve_static (basePath : String) (fsRead : String → Option String)
    (req : Request) (res : Response) :
    (fsRead (posixJoin basePath (req.path.getD "undefined")) = none →
      serveStatic basePath fsRead req res = .fallThrough) ∧
    (∀ data, fsRead (posixJoin basePath (req.path.getD "undefined")) = some data →
      ∃ r w, serveStatic basePath fsRead req res = .served r w ∧
        objGet r.headers "Content-Type" =
          some (getMIMEType (posixJoin basePath (req.path.getD "undefined"))) ∧
        String.join w = r.statusLineToString ++ (r.headersToString ++ ("\r\n" ++ data))) := by
  constructor
  · intro hnone
    simp only [serveStatic]
    rw [hnone]
  · intro data hsome
    simp only [serveStatic]
    rw [hsome]
    refine ⟨_, _, rfl, ?_, ?_⟩
    · rw [send_fst]
      have hck : containsKey
          (res.set "Content-Type"
            (getMIMEType (posixJoin basePath (req.path.getD "undefined")))).headers
          "Content-Type" = true := by
        unfold Response.set
        exact containsKey_objSet_self _ _ _
      rw [if_pos hck]
      unfold Response.set
      exact objGet_objSet_self _ _ _
    · exact send_join _ data

/-- Closed instance for `c5_serve_static`: a PNG file present on the
modelled file system is served with `Content-Type: image/png` content
inferred from its extension. -/
theorem c5_witness :
    ∃ r w, serveStatic "/public"
        (fun s => if s = "/public/cat.png" then some "DATA" else none)
        (Request.ofString "GET /cat.png HTTP/1.1") Response.init = .served r w ∧
      objGet r.headers "Content-Type" =
        some (getMIMEType (posixJoin "/public"
          ((Request.ofString "GET /cat.png HTTP/1.1").path.getD "undefined"))) ∧
      String.join w = r.statusLineToString ++ (r.headersToString ++ ("\r\n" ++ "DATA")) :=
  (c5_serve_static "/public"
    (fun s => if s = "/public/cat.png" then some "DATA" else none)
    (Request.ofString "GET /cat.png HTTP/1.1") Response.init).2 "DATA" (by decide)

end Inexpress
